import Mathlib

/-!
# Verification of the duplex voice conversation engine

Shallow embedding of the real-time audio session in
`src/components/LiveConversation.tsx`: the PCM codec (`createPcmBlob`,
`base64Encode`/`base64Decode`, `decodeAudioData`), the playback scheduler
(the `onmessage` callback's gapless scheduling and interruption reset over
`nextStartTimeRef` / `activeSourcesRef`), the capture pipeline
(`processor.onaudioprocess` with its volume meter and mic gate), the start
sequence (`startSession`) and the teardown (`cleanup`).

Numeric conventions: JavaScript numbers are modelled as `ℚ` (every
operation performed by this code on them — clamping, scaling by `2^15`,
division by `32768`, additions of start times — is modelled exactly);
machine integers are `ℤ`/`ℕ` with explicit two's-complement wrapping where
the code reinterprets buffers. Byte buffers (`Uint8Array`) are `List ℕ`
with values below 256; the platform is little-endian, as `Int16Array`
buffer views are in every JS engine this app targets.
-/

/-! ## PCM codec -/

/-- Truncation toward zero, the conversion JavaScript applies when a
number is stored into an `Int16Array` element (after clamping, the code's
values are always in range, so no wrap-around occurs). -/
def ratTrunc (q : ℚ) : ℤ := if q < 0 then ⌈q⌉ else ⌊q⌋

/-- One sample of `createPcmBlob` (LiveConversation.tsx:54-58):
`let s = Math.max(-1, Math.min(1, data[i])); int16[i] = s < 0 ? s * 0x8000 : s * 0x7FFF`. -/
def encodeSample (x : ℚ) : ℤ :=
  let s := max (-1) (min 1 x)
  if s < 0 then ratTrunc (s * 0x8000) else ratTrunc (s * 0x7FFF)

/-- Little-endian bytes of one `Int16Array` element as seen through
`new Uint8Array(int16.buffer)` (LiveConversation.tsx:59): the 16-bit two's
complement representation, low byte first. -/
def int16ToBytes (v : ℤ) : List ℕ :=
  [(v % 65536).toNat % 256, (v % 65536).toNat / 256]

/-- One element of `new Int16Array(data.buffer)`
(LiveConversation.tsx:68): two little-endian bytes reinterpreted as a
signed 16-bit integer. -/
def toInt16 (lo hi : ℕ) : ℤ :=
  if lo + 256 * hi < 32768 then (lo + 256 * hi : ℤ) else (lo + 256 * hi : ℤ) - 65536

/-- The whole `Int16Array` view of a byte buffer (little-endian pairs). -/
def bytesToInt16 : List ℕ → List ℤ
  | lo :: hi :: rest => toInt16 lo hi :: bytesToInt16 rest
  | _ => []

/-! ### base64 (the platform's `btoa`/`atob`, used by the manually
implemented `base64Encode`/`base64Decode` helpers, LiveConversation.tsx:31-48) -/

/-- The base64 alphabet. -/
def base64Chars : List Char :=
  "ABCDEFGHIJKLMNOPQRSTUVWXYZabcdefghijklmnopqrstuvwxyz0123456789+/".toList

/-- Character for a 6-bit group. -/
def sixBitToChar (n : ℕ) : Char := base64Chars.getD n '='

/-- Index of a base64 character in the alphabet. -/
def charToSixBit (c : Char) : ℕ := base64Chars.indexOf c

/-- The platform's `btoa` on a binary string, viewed as the byte values of
its characters: standard base64, 3 bytes to 4 characters, `=`-padded. -/
def btoa : List ℕ → List Char
  | [] => []
  | [b1] =>
      [sixBitToChar (b1 / 4), sixBitToChar (b1 % 4 * 16), '=', '=']
  | [b1, b2] =>
      [sixBitToChar (b1 / 4), sixBitToChar (b1 % 4 * 16 + b2 / 16),
       sixBitToChar (b2 % 16 * 4), '=']
  | b1 :: b2 :: b3 :: rest =>
      sixBitToChar (b1 / 4) :: sixBitToChar (b1 % 4 * 16 + b2 / 16) ::
      sixBitToChar (b2 % 16 * 4 + b3 / 64) :: sixBitToChar (b3 % 64) :: btoa rest

/-- The platform's `atob`, producing the byte values of the decoded binary
string: 4 base64 characters to 3 bytes, fewer at an `=`-padded tail. -/
def atob : List Char → List ℕ
  | c1 :: c2 :: c3 :: c4 :: rest =>
      if c3 = '=' then
        [charToSixBit c1 * 4 + charToSixBit c2 / 16]
      else if c4 = '=' then
        [charToSixBit c1 * 4 + charToSixBit c2 / 16,
         charToSixBit c2 % 16 * 16 + charToSixBit c3 / 4]
      else
        (charToSixBit c1 * 4 + charToSixBit c2 / 16) ::
        (charToSixBit c2 % 16 * 16 + charToSixBit c3 / 4) ::
        (charToSixBit c3 % 4 * 64 + charToSixBit c4) :: atob rest
  | _ => []

/-- `base64Encode` (LiveConversation.tsx:31-38): builds the binary string
from the bytes with `String.fromCharCode` and applies `btoa`. -/
def base64Encode (bytes : List ℕ) : String := String.mk (btoa bytes)

/-- `base64Decode` (LiveConversation.tsx:40-48): applies `atob` and reads
the byte values back with `charCodeAt`. -/
def base64Decode (base64 : String) : List ℕ := atob base64.toList

/-- `createPcmBlob` (LiveConversation.tsx:51-60): clamp and scale every
float sample to a 16-bit integer, reinterpret the `Int16Array` buffer as
bytes, and base64-encode them. -/
def createPcmBlob (data : List ℚ) : String :=
  base64Encode ((data.map encodeSample).flatMap int16ToBytes)

/-- `decodeAudioData` (LiveConversation.tsx:63-77): reinterpret the byte
buffer as an `Int16Array` — which throws a `RangeError` when the byte
length is not a multiple of 2 — and rescale each element by `1/32768`
into float samples. -/
def decodeAudioData (data : List ℕ) : Except String (List ℚ) :=
  if data.length % 2 = 0 then
    Except.ok ((bytesToInt16 data).map fun (v : ℤ) => (v : ℚ) / 32768)
  else
    Except.error ("RangeError: byte length of Int16Array should be a multiple of 2")

/-! ## Playback scheduler

State of the `onmessage` playback machinery: the `nextStartTimeRef` cursor,
the `activeSourcesRef` collection, and a ghost log of every handle on which
`stop()` has been invoked (in the Web Audio model, a source whose `stop()`
is called before its scheduled start time never produces sound). -/

/-- An `AudioBufferSourceNode` handle: its scheduled start time and whether
`stop()` has been invoked on it. -/
structure SourceHandle where
  startTime : ℚ
  stopped : Bool
deriving DecidableEq, Repr

/-- A source emits audio only if `stop()` was never invoked on it before
playback; this is the Web Audio semantics of `source.stop()`. -/
def sourceWillPlay (s : SourceHandle) : Bool := !s.stopped

/-- The playback scheduler's mutable state: `nextStartTimeRef.current`,
`activeSourcesRef.current`, and the ghost list of stopped handles. -/
structure PlayerState where
  nextStartTime : ℚ
  activeSources : List SourceHandle
  stoppedSources : List SourceHandle
deriving DecidableEq, Repr

/-- The gapless scheduling block of `onmessage`
(LiveConversation.tsx:197-204) for a decoded buffer of duration `d` at
device clock `now`: `startTime = max(now, nextStartTime)`;
`source.start(startTime)`; `nextStartTime = startTime + d`; push the
handle onto `activeSourcesRef`. Returns the scheduled start time and the
updated state. -/
def scheduleBuffer (st : PlayerState) (now d : ℚ) : ℚ × PlayerState :=
  let startTime := max now st.nextStartTime
  (startTime,
   { nextStartTime := startTime + d
     activeSources := st.activeSources ++ [⟨startTime, false⟩]
     stoppedSources := st.stoppedSources })

/-- The `source.onended` callback (LiveConversation.tsx:205-207): remove
the handle from `activeSourcesRef`. -/
def sourceEnded (st : PlayerState) (s : SourceHandle) : PlayerState :=
  { st with activeSources := st.activeSources.filter (fun t => t ≠ s) }

/-- The `interrupted` block of `onmessage` (LiveConversation.tsx:210-219):
call `stop()` on every handle in `activeSourcesRef` (inside a
`try`/`catch`), clear the collection, and reset `nextStartTimeRef` to the
device clock `now`. -/
def onInterrupted (st : PlayerState) (now : ℚ) : PlayerState :=
  { nextStartTime := now
    activeSources := []
    stoppedSources :=
      st.stoppedSources ++ st.activeSources.map (fun s => { s with stopped := true }) }

/-- One inbound `LiveServerMessage` as far as the playback scheduler is
concerned: the optional base64-decoded audio payload of
`serverContent.modelTurn.parts[0].inlineData.data`, and the
`serverContent.interrupted` flag. -/
structure ServerMessage where
  audioData : Option (List ℕ)
  interrupted : Bool

/-- The `onmessage` callback (LiveConversation.tsx:186-220). If the audio
payload fails to decode (`await decodeAudioData` throws), the async
callback rejects: the rest of the handler — including the `interrupted`
check of the same message — is skipped and the state is untouched. A
decoded buffer of `n` samples at 24 kHz has duration `n / 24000`. -/
def onMessage (st : PlayerState) (now : ℚ) (msg : ServerMessage) : PlayerState :=
  match msg.audioData with
  | some bytes =>
    match decodeAudioData bytes with
    | Except.error _ => st
    | Except.ok samples =>
      let st1 := (scheduleBuffer st now ((samples.length : ℚ) / 24000)).2
      if msg.interrupted then onInterrupted st1 now else st1
  | none => if msg.interrupted then onInterrupted st now else st

/-- The start times scheduled for a run of `AudioDelta` events without
interruption: each event is a pair `(now, d)` of the device clock at
arrival and the decoded buffer's duration. -/
def runDeltas (st : PlayerState) : List (ℚ × ℚ) → List ℚ
  | [] => []
  | (now, d) :: rest =>
    let r := scheduleBuffer st now d
    r.1 :: runDeltas r.2 rest

/-! ## Capture pipeline -/

/-- The visualizer loop of `processor.onaudioprocess`
(LiveConversation.tsx:139-140): `for(let i=0; i<len; i+=100) sum +=
Math.abs(inputData[i])` — the running index is threaded so that exactly
the samples at indices `0, 100, 200, …` are accumulated. -/
def sparseAbsSumAux : List ℚ → ℕ → ℚ
  | [], _ => 0
  | x :: rest, i => (if i % 100 = 0 then |x| else 0) + sparseAbsSumAux rest (i + 1)

/-- Sum of absolute sample values at every 100th index of the frame. -/
def sparseAbsSum (frame : List ℚ) : ℚ := sparseAbsSumAux frame 0

/-- The volume published by `setVolumeLevel` (LiveConversation.tsx:141):
`Math.min(100, (sum / (len/100)) * 500)`. -/
def volumeLevel (frame : List ℚ) : ℚ :=
  min 100 (sparseAbsSum frame / ((frame.length : ℚ) / 100) * 500)

/-- The body of `processor.onaudioprocess` (LiveConversation.tsx:133-156)
parametrised by the `isMicOn` value the closure reads: when it is false
the frame is discarded before any further processing; otherwise the
volume level is published and the PCM blob is produced and handed to
`session.sendRealtimeInput`. -/
def onAudioProcess (isMicOn : Bool) (frame : List ℚ) : Option (ℚ × String) :=
  if !isMicOn then none
  else some (volumeLevel frame, createPcmBlob frame)

/-- The mic-toggle-relevant component state: the React `isMicOn` state
(initially `true`, LiveConversation.tsx:14) and the `isMicOn` value
captured by the `processor.onaudioprocess` closure when `startSession`
installed it (`none` while no handler is installed). The handler is
assigned once, inside `startSession` (LiveConversation.tsx:133), and is
never reassigned on re-render, so the value it reads is the one captured
at installation time — JavaScript closures capture the per-render `const`
binding, not the live state. -/
structure MicState where
  isMicOn : Bool
  handlerMicOn : Option Bool
deriving DecidableEq, Repr

/-- Component state right after mount: `useState(true)`, no handler yet. -/
def initialMicState : MicState := ⟨true, none⟩

/-- `processor.onaudioprocess = (e) => …` in `startSession`
(LiveConversation.tsx:133): the closure captures the current render's
`isMicOn`. -/
def installAudioHandler (st : MicState) : MicState :=
  { st with handlerMicOn := some st.isMicOn }

/-- The React state setter `setIsMicOn` (LiveConversation.tsx:14): updates
the component state for subsequent renders; the already-installed handler
keeps its captured value. -/
def setIsMicOn (st : MicState) (b : Bool) : MicState := { st with isMicOn := b }

/-- The mic button's `onClick={() => setIsMicOn(!isMicOn)}`
(LiveConversation.tsx:306). -/
def toggleMicButton (st : MicState) : MicState := setIsMicOn st (!st.isMicOn)

/-- Delivery of one capture frame to the installed `onaudioprocess`
handler: the handler runs with the `isMicOn` value it captured. -/
def deliverFrame (st : MicState) (frame : List ℚ) : Option (ℚ × String) :=
  match st.handlerMicOn with
  | none => none
  | some captured => onAudioProcess captured frame

/-! ## Session lifecycle: start sequence -/

/-- How `navigator.mediaDevices.getUserMedia` can fail:
`NotAllowedError` (permission denied), `NotFoundError` (no microphone),
or anything else. -/
inductive MediaError
  | notAllowed
  | notFound
  | other (msg : String)
deriving DecidableEq

/-- The `catch` block of `startSession` (LiveConversation.tsx:234-243):
map the thrown error to the human-readable status string. -/
def initErrorStatus : MediaError → String
  | MediaError.notAllowed => "Microphone permission denied."
  | MediaError.notFound => "No microphone found."
  | MediaError.other msg => "Failed to initialize: " ++ msg

/-- The environment `startSession` runs against: whether `process.env`
holds an API key, and how `getUserMedia` resolves. -/
structure StartEnv where
  apiKey : Option String
  micResult : Except MediaError Unit

/-- Observable outcome of `startSession`: the status string it leaves
behind and whether `ai.live.connect` was ever invoked (i.e. whether a
transport channel was opened). -/
structure StartOutcome where
  status : String
  transportOpened : Bool
deriving DecidableEq

/-- `startSession` (LiveConversation.tsx:92-244), projected onto the start
order that matters here: check the API key (a missing key throws a plain
`Error`), then acquire the microphone with `getUserMedia`, and only after
that succeeds call `ai.live.connect`; any thrown error lands in the
`catch` block, which sets a status distinguishing `NotAllowedError` from
`NotFoundError`, and the connect call is never reached. -/
def startSession (env : StartEnv) : StartOutcome :=
  match env.apiKey with
  | none => { status := initErrorStatus (MediaError.other ("No API Key")), transportOpened := false }
  | some _ =>
    match env.micResult with
    | Except.error e => { status := initErrorStatus e, transportOpened := false }
    | Except.ok _ => { status := "Connecting to INDI-HUNTER...", transportOpened := true }

/-! ## Session lifecycle: teardown -/

/-- The resource refs `cleanup` releases (LiveConversation.tsx:19-28):
`Option` mirrors a nullable ref; the audio contexts carry their
`state === 'closed'` flag; `activeSources` is `activeSourcesRef.current`. -/
structure Refs where
  sessionPromise : Option Unit
  mediaStream : Option (List Unit)
  source : Option Unit
  processor : Option Unit
  audioContext : Option Bool
  inputAudioContext : Option Bool
  activeSources : List SourceHandle
deriving DecidableEq

/-- Behaviour of the failure-capable platform calls during teardown:
whether `session.close()` rejects and which `source.stop()` calls throw
(`InvalidStateError` on a never-started source, for instance). -/
structure CleanupEnv where
  closeSessionFails : Bool
  stopSourceFails : SourceHandle → Bool

/-- `session.close()` as reached through
`sessionPromiseRef.current.then(…)`; its rejection is routed to the
attached `.catch`. -/
def closeSessionCall (env : CleanupEnv) : Except String Unit :=
  if env.closeSessionFails then Except.error ("session close rejected") else Except.ok ()

/-- `s.stop()` on a pending source, which may throw. -/
def stopSourceCall (env : CleanupEnv) (s : SourceHandle) : Except String Unit :=
  if env.stopSourceFails s then Except.error ("InvalidStateError") else Except.ok ()

/-- A `try { … } catch (e) {}` wrapper: the exception is swallowed and
execution continues. -/
def tryIgnore (act : Except String Unit) : Except String Unit :=
  match act with
  | Except.ok _ => Except.ok ()
  | Except.error _ => Except.ok ()

/-- The `activeSourcesRef.current.forEach(s => { try { s.stop() } catch
(e) {} })` loop (LiveConversation.tsx:277-279). -/
def stopAllSources (env : CleanupEnv) : List SourceHandle → Except String Unit
  | [] => Except.ok ()
  | s :: rest => do
    let _ ← tryIgnore (stopSourceCall env s)
    stopAllSources env rest

/-- The fully-released ref state `cleanup` leaves behind. -/
def cleanedRefs : Refs :=
  { sessionPromise := none, mediaStream := none, source := none, processor := none
    audioContext := none, inputAudioContext := none, activeSources := [] }

/-- `cleanup` (LiveConversation.tsx:246-283), step by step in source
order. Each release is guarded exactly as in the code: a null check on
the ref, a `state !== 'closed'` check on the contexts, `.catch` on the
session close, `try`/`catch` around each `s.stop()`. `t.stop()` on a
`MediaStreamTrack` and a no-argument `disconnect()` never throw, and
`ctx.close()` returns a promise whose rejection is not awaited, so none
of those steps can raise. An uncaught exception would surface as
`Except.error` and abort the remaining steps. -/
def cleanup (env : CleanupEnv) (st : Refs) : Except String Refs := do
  let st1 ←
    match st.sessionPromise with
    | some _ => do
      let _ ← tryIgnore (closeSessionCall env)
      pure { st with sessionPromise := none }
    | none => pure st
  let st2 ←
    match st1.mediaStream with
    | some _tracks => pure { st1 with mediaStream := none }
    | none => pure st1
  let st3 ←
    match st2.source with
    | some _ => pure { st2 with source := none }
    | none => pure st2
  let st4 ←
    match st3.processor with
    | some _ => pure { st3 with processor := none }
    | none => pure st3
  let st5 := { st4 with audioContext := none }
  let st6 := { st5 with inputAudioContext := none }
  let _ ← stopAllSources env st6.activeSources
  pure { st6 with activeSources := [] }

/-! ## Codec lemmas -/

theorem charToSixBit_sixBitToChar : ∀ n : ℕ, n < 64 → charToSixBit (sixBitToChar n) = n := by
  decide

theorem sixBitToChar_ne_pad : ∀ n : ℕ, n < 64 → sixBitToChar n ≠ '=' := by
  decide

theorem atob_btoa : ∀ bs : List ℕ, (∀ b ∈ bs, b < 256) → atob (btoa bs) = bs
  | [], _ => rfl
  | [b1], h => by
    have hb1 : b1 < 256 := h b1 (by simp)
    have e1 := charToSixBit_sixBitToChar (b1 / 4) (by omega)
    have e2 := charToSixBit_sixBitToChar (b1 % 4 * 16) (by omega)
    simp [btoa, atob, e1, e2]
    omega
  | [b1, b2], h => by
    have hb1 : b1 < 256 := h b1 (by simp)
    have hb2 : b2 < 256 := h b2 (by simp)
    have e1 := charToSixBit_sixBitToChar (b1 / 4) (by omega)
    have e2 := charToSixBit_sixBitToChar (b1 % 4 * 16 + b2 / 16) (by omega)
    have e3 := charToSixBit_sixBitToChar (b2 % 16 * 4) (by omega)
    have n3 := sixBitToChar_ne_pad (b2 % 16 * 4) (by omega)
    simp [btoa, atob, e1, e2, e3, n3]
    omega
  | b1 :: b2 :: b3 :: rest, h => by
    have hb1 : b1 < 256 := h b1 (by simp)
    have hb2 : b2 < 256 := h b2 (by simp)
    have hb3 : b3 < 256 := h b3 (by simp)
    have ih := atob_btoa rest (fun b hb => h b (by simp [hb]))
    have e1 := charToSixBit_sixBitToChar (b1 / 4) (by omega)
    have e2 := charToSixBit_sixBitToChar (b1 % 4 * 16 + b2 / 16) (by omega)
    have e3 := charToSixBit_sixBitToChar (b2 % 16 * 4 + b3 / 64) (by omega)
    have e4 := charToSixBit_sixBitToChar (b3 % 64) (by omega)
    have n3 := sixBitToChar_ne_pad (b2 % 16 * 4 + b3 / 64) (by omega)
    have n4 := sixBitToChar_ne_pad (b3 % 64) (by omega)
    simp [btoa, atob, e1, e2, e3, e4, n3, n4, ih]
    omega

theorem int16ToBytes_lt (v : ℤ) : ∀ b ∈ int16ToBytes v, b < 256 := by
  intro b hb
  have h1 : 0 ≤ v % 65536 := Int.emod_nonneg v (by norm_num)
  have h2 : v % 65536 < 65536 := Int.emod_lt_of_pos v (by norm_num)
  simp [int16ToBytes] at hb
  rcases hb with hb | hb <;> omega

theorem bytesToInt16_flatMap :
    ∀ l : List ℤ, (∀ v ∈ l, -32768 ≤ v ∧ v ≤ 32767) →
      bytesToInt16 (l.flatMap int16ToBytes) = l
  | [], _ => rfl
  | v :: rest, h => by
    have hv := h v (by simp)
    have ih := bytesToInt16_flatMap rest (fun w hw => h w (by simp [hw]))
    have h1 : 0 ≤ v % 65536 := Int.emod_nonneg v (by norm_num)
    have h2 : v % 65536 < 65536 := Int.emod_lt_of_pos v (by norm_num)
    have hu : ((v % 65536).toNat : ℤ) = v % 65536 := Int.toNat_of_nonneg h1
    simp only [List.flatMap_cons, int16ToBytes, List.cons_append, List.nil_append,
      bytesToInt16, ih]
    congr 1
    rw [toInt16]
    split <;> omega

theorem length_flatMap_int16ToBytes :
    ∀ l : List ℤ, (l.flatMap int16ToBytes).length = 2 * l.length
  | [] => rfl
  | v :: rest => by
    simp [int16ToBytes, length_flatMap_int16ToBytes rest]
    omega

theorem encodeSample_range (x : ℚ) : -32768 ≤ encodeSample x ∧ encodeSample x ≤ 32767 := by
  simp only [encodeSample]
  have h1 : (-1 : ℚ) ≤ max (-1) (min 1 x) := le_max_left _ _
  have h2 : max (-1 : ℚ) (min 1 x) ≤ 1 := max_le (by norm_num) (min_le_left _ _)
  set s := max (-1 : ℚ) (min 1 x) with hs
  split_ifs with hneg
  · rw [ratTrunc, if_pos (by nlinarith : s * (0x8000 : ℚ) < 0)]
    constructor
    · rw [Int.le_ceil_iff]
      push_cast
      nlinarith
    · rw [Int.ceil_le]
      push_cast
      nlinarith
  · push_neg at hneg
    rw [ratTrunc, if_neg (by push_neg; nlinarith : ¬ s * (0x7FFF : ℚ) < 0)]
    constructor
    · rw [Int.le_floor]
      push_cast
      nlinarith
    · rw [Int.floor_le_iff]
      push_cast
      nlinarith

theorem encodeSample_err (x : ℚ) (h1 : -1 ≤ x) (h2 : x ≤ 1) :
    |x - (encodeSample x : ℚ) / 32768| < 2 / 32768 := by
  have hs : max (-1 : ℚ) (min 1 x) = x := by rw [min_eq_right h2, max_eq_right h1]
  simp only [encodeSample, hs]
  split_ifs with hneg
  · rw [ratTrunc, if_pos (by nlinarith : x * (0x8000 : ℚ) < 0)]
    have lb : x * (0x8000 : ℚ) ≤ ((⌈x * (0x8000 : ℚ)⌉ : ℤ) : ℚ) := Int.le_ceil _
    have ub : ((⌈x * (0x8000 : ℚ)⌉ : ℤ) : ℚ) < x * (0x8000 : ℚ) + 1 :=
      Int.ceil_lt_add_one _
    rw [abs_sub_lt_iff]
    constructor <;> nlinarith
  · push_neg at hneg
    rw [ratTrunc, if_neg (by push_neg; nlinarith : ¬ x * (0x7FFF : ℚ) < 0)]
    have lb : ((⌊x * (0x7FFF : ℚ)⌋ : ℤ) : ℚ) ≤ x * (0x7FFF : ℚ) := Int.floor_le _
    have ub : x * (0x7FFF : ℚ) - 1 < ((⌊x * (0x7FFF : ℚ)⌋ : ℤ) : ℚ) :=
      Int.sub_one_lt_floor _
    rw [abs_sub_lt_iff]
    constructor <;> nlinarith

theorem roundTrip_eq (data : List ℚ) :
    decodeAudioData (base64Decode (createPcmBlob data)) =
      Except.ok (data.map fun x => (encodeSample x : ℚ) / 32768) := by
  have hbytes : ∀ b ∈ (data.map encodeSample).flatMap int16ToBytes, b < 256 := by
    intro b hb
    rw [List.mem_flatMap] at hb
    obtain ⟨v, _, hbv⟩ := hb
    exact int16ToBytes_lt v b hbv
  have hrange : ∀ v ∈ data.map encodeSample, -32768 ≤ v ∧ v ≤ 32767 := by
    intro v hv
    rw [List.mem_map] at hv
    obtain ⟨x, _, rfl⟩ := hv
    exact encodeSample_range x
  rw [createPcmBlob, base64Encode, base64Decode]
  rw [show ∀ l : List Char, (String.mk l).toList = l from fun _ => rfl]
  rw [atob_btoa _ hbytes, decodeAudioData]
  rw [if_pos (by rw [length_flatMap_int16ToBytes]; omega)]
  rw [bytesToInt16_flatMap _ hrange, List.map_map]
  rfl

/-! ## Scheduler lemmas -/

theorem runDeltas_length :
    ∀ (st : PlayerState) (evs : List (ℚ × ℚ)), (runDeltas st evs).length = evs.length
  | _, [] => rfl
  | st, (now, d) :: rest => by
    simp [runDeltas, runDeltas_length _ rest]

/-! ## Capture lemmas -/

theorem sparseAbsSumAux_nonneg : ∀ (l : List ℚ) (i : ℕ), 0 ≤ sparseAbsSumAux l i
  | [], _ => le_refl 0
  | x :: rest, i => by
    have hr := sparseAbsSumAux_nonneg rest (i + 1)
    have hx : (0 : ℚ) ≤ |x| := abs_nonneg x
    simp only [sparseAbsSumAux]
    split_ifs <;> linarith

theorem volumeLevel_mem (frame : List ℚ) (h : 0 < frame.length) :
    0 ≤ volumeLevel frame ∧ volumeLevel frame ≤ 100 := by
  have h0 : (0 : ℚ) ≤ sparseAbsSum frame := sparseAbsSumAux_nonneg frame 0
  have hlen : (0 : ℚ) < (frame.length : ℚ) / 100 := by
    have : (0 : ℚ) < (frame.length : ℚ) := by exact_mod_cast h
    linarith
  refine ⟨le_min (by norm_num) ?_, min_le_left _ _⟩
  exact mul_nonneg (div_nonneg h0 hlen.le) (by norm_num)

/-! ## Teardown lemmas -/

theorem tryIgnore_eq_ok (act : Except String Unit) : tryIgnore act = Except.ok () := by
  cases act <;> rfl

theorem stopAllSources_eq_ok (env : CleanupEnv) :
    ∀ l : List SourceHandle, stopAllSources env l = Except.ok ()
  | [] => rfl
  | s :: rest => by
    rw [stopAllSources, tryIgnore_eq_ok]
    exact stopAllSources_eq_ok env rest

theorem cleanup_eq (env : CleanupEnv) (st : Refs) :
    cleanup env st = Except.ok cleanedRefs := by
  obtain ⟨sp, ms, so, pr, ac, ic, as⟩ := st
  cases sp <;> cases ms <;> cases so <;> cases pr <;>
    simp [cleanup, cleanedRefs, tryIgnore_eq_ok, stopAllSources_eq_ok] <;> rfl

/-! ## The claims -/

/-- C1: for every run of `AudioDelta` events `(now_i, d_i)` processed by the
gapless scheduling block, consecutive scheduled start times satisfy
`start(i+1) ≥ start(i) + d(i)`, with equality whenever the next chunk
arrives no later than the previous chunk's scheduled end
(`now(i+1) ≤ start(i) + d(i)`). -/
theorem claim_C1_gapless_scheduling :
    ∀ (st : PlayerState) (events : List (ℚ × ℚ)) (i : ℕ), i + 1 < events.length →
      (runDeltas st events).getD i 0 + (events.getD i (0, 0)).2 ≤
          (runDeltas st events).getD (i + 1) 0
      ∧ ((events.getD (i + 1) (0, 0)).1 ≤
            (runDeltas st events).getD i 0 + (events.getD i (0, 0)).2 →
          (runDeltas st events).getD (i + 1) 0 =
            (runDeltas st events).getD i 0 + (events.getD i (0, 0)).2)
  | _, [], i, h => absurd h (by simp)
  | st, (n1, d1) :: rest, 0, h => by
    match rest, h with
    | (n2, d2) :: rest2, _ =>
      simp only [runDeltas, scheduleBuffer, List.getD_cons_succ, List.getD_cons_zero]
      exact ⟨le_max_right _ _, fun hle => max_eq_right hle⟩
  | st, (n1, d1) :: rest, i + 1, h => by
    have ih := claim_C1_gapless_scheduling (scheduleBuffer st n1 d1).2 rest i (by
      simpa using h)
    simpa [runDeltas, List.getD_cons_succ] using ih

/-- C1 witness: three 256 ms chunks arriving at device time 0 with the
cursor at 0 are scheduled gaplessly (starts 0, 256, 512): instantiated
here for the adjacent pair (0, 1). -/
theorem claim_C1_gapless_scheduling_witness :
    (runDeltas ⟨0, [], []⟩ [((0 : ℚ), (256 : ℚ)), (0, 256), (0, 256)]).getD 1 0 =
      (runDeltas ⟨0, [], []⟩ [((0 : ℚ), (256 : ℚ)), (0, 256), (0, 256)]).getD 0 0 +
        (([((0 : ℚ), (256 : ℚ)), (0, 256), (0, 256)]).getD 0 (0, 0)).2 :=
  (claim_C1_gapless_scheduling ⟨0, [], []⟩ _ 0 (by norm_num)).2
    (by simp [runDeltas, scheduleBuffer])

/-- C2: after the `interrupted` handler runs at device clock `now`, the
pending-sources collection is empty, the cursor equals `now`, and every
handle that was pending (scheduled but possibly not yet started) had
`stop()` invoked on it, so it never plays. -/
theorem claim_C2_interrupt_reset (st : PlayerState) (now : ℚ) :
    (onInterrupted st now).activeSources = []
    ∧ (onInterrupted st now).nextStartTime = now
    ∧ ∀ s ∈ st.activeSources,
        ({ s with stopped := true } : SourceHandle) ∈ (onInterrupted st now).stoppedSources
        ∧ sourceWillPlay { s with stopped := true } = false := by
  refine ⟨rfl, rfl, fun s hs => ⟨?_, rfl⟩⟩
  simp only [onInterrupted, List.mem_append, List.mem_map]
  exact Or.inr ⟨s, hs, rfl⟩

/-- C2 witness: a concrete interruption at time 2 with one pending source
scheduled for time 3. -/
theorem claim_C2_interrupt_reset_witness :
    (onInterrupted ⟨5, [⟨3, false⟩], []⟩ 2).activeSources = []
    ∧ (onInterrupted ⟨5, [⟨3, false⟩], []⟩ 2).nextStartTime = 2
    ∧ (({ startTime := 3, stopped := true } : SourceHandle) ∈
          (onInterrupted ⟨5, [⟨3, false⟩], []⟩ 2).stoppedSources
        ∧ sourceWillPlay { startTime := 3, stopped := true } = false) :=
  ⟨(claim_C2_interrupt_reset ⟨5, [⟨3, false⟩], []⟩ 2).1,
   (claim_C2_interrupt_reset ⟨5, [⟨3, false⟩], []⟩ 2).2.1,
   (claim_C2_interrupt_reset ⟨5, [⟨3, false⟩], []⟩ 2).2.2 ⟨3, false⟩ (by simp)⟩

/-- C3: `nextStartTime` never decreases across a scheduling step for a
nonnegative duration, and the only reset is the interruption handler,
which sets it to the device clock. -/
theorem claim_C3_cursor_monotone :
    (∀ (st : PlayerState) (now d : ℚ), 0 ≤ d →
        st.nextStartTime ≤ (scheduleBuffer st now d).2.nextStartTime)
    ∧ ∀ (st : PlayerState) (now : ℚ), (onInterrupted st now).nextStartTime = now := by
  constructor
  · intro st now d hd
    simp only [scheduleBuffer]
    have := le_max_right now st.nextStartTime
    linarith
  · intro st now
    rfl

/-- C3 witness: a concrete scheduling step (cursor 2, clock 5, duration 1)
and a concrete interruption reset to clock 7. -/
theorem claim_C3_cursor_monotone_witness :
    ((⟨2, [], []⟩ : PlayerState).nextStartTime ≤
        (scheduleBuffer ⟨2, [], []⟩ 5 1).2.nextStartTime)
    ∧ (onInterrupted ⟨2, [], []⟩ 7).nextStartTime = 7 :=
  ⟨claim_C3_cursor_monotone.1 ⟨2, [], []⟩ 5 1 (by norm_num),
   claim_C3_cursor_monotone.2 ⟨2, [], []⟩ 7⟩

/-- C4 counterexample: the round-trip error is NOT within `1/32768` for
every in-range sample. At sample `9/10` the encoder truncates
`0.9 · 32767 = 29490.3` to `29490` and the decoder divides by `32768`,
giving an error of `3/81920 > 1/32768`. -/
theorem claim_C4_roundtrip_counterexample :
    ∃ out, decodeAudioData (base64Decode (createPcmBlob [9/10])) = Except.ok out
      ∧ ¬ |(9/10 : ℚ) - out.getD 0 0| ≤ 1 / 32768 := by
  refine ⟨[29490/32768], ?_, ?_⟩
  · have h1 : encodeSample (9/10) = 29490 := by
      norm_num [encodeSample, ratTrunc, Int.floor_eq_iff]
    rw [roundTrip_eq]
    simp only [List.map_cons, List.map_nil, h1]
    norm_num
  · simp only [List.getD_cons_zero]
    rw [abs_of_pos (by norm_num : (0 : ℚ) < 9/10 - 29490/32768)]
    norm_num

/-- C4 (amended): decoding the result of encoding reconstructs every
in-range sample within twice the 16-bit quantization step,
`|decoded(i) - original(i)| < 2/32768`; the `1/32768` bound holds for
negative samples, but the asymmetric positive encode scale (32767) against
the uniform decode divisor (32768) contributes up to one extra step. -/
theorem claim_C4_roundtrip_two_steps (data : List ℚ)
    (h : ∀ x ∈ data, -1 ≤ x ∧ x ≤ 1) :
    ∃ out, decodeAudioData (base64Decode (createPcmBlob data)) = Except.ok out
      ∧ out.length = data.length
      ∧ ∀ i, i < data.length → |data.getD i 0 - out.getD i 0| < 2 / 32768 := by
  refine ⟨_, roundTrip_eq data, by simp, ?_⟩
  intro i hi
  have hmem : data.getD i 0 ∈ data := by
    rw [List.getD_eq_getElem data 0 hi]
    exact List.getElem_mem hi
  have hout : (data.map fun x => (encodeSample x : ℚ) / 32768).getD i 0 =
      (encodeSample (data.getD i 0) : ℚ) / 32768 := by
    rw [List.getD_eq_getElem data 0 hi,
      List.getD_eq_getElem _ 0 (by simpa using hi), List.getElem_map]
  rw [hout]
  exact encodeSample_err _ (h _ hmem).1 (h _ hmem).2

/-- C4 witness: the amended bound instantiated at the one-sample sequence
`[9/10]`. -/
theorem claim_C4_roundtrip_two_steps_witness :
    ∃ out, decodeAudioData (base64Decode (createPcmBlob [9/10])) = Except.ok out
      ∧ out.length = ([(9/10 : ℚ)]).length
      ∧ ∀ i, i < ([(9/10 : ℚ)]).length →
          |([(9/10 : ℚ)]).getD i 0 - out.getD i 0| < 2 / 32768 :=
  claim_C4_roundtrip_two_steps [9/10] (by norm_num)

/-- C5: the encoder clamps each sample to `[-1, 1]` and then scales
asymmetrically — negative samples by `0x8000 = 32768`, non-negative ones
by `0x7FFF = 32767` — so every encoded value lies in `[-32768, 32767]`. -/
theorem claim_C5_encoder_clamp_and_range (x : ℚ) :
    encodeSample x =
      (if max (-1) (min 1 x) < 0 then ratTrunc (max (-1) (min 1 x) * 0x8000)
       else ratTrunc (max (-1) (min 1 x) * 0x7FFF))
    ∧ -32768 ≤ encodeSample x ∧ encodeSample x ≤ 32767 :=
  ⟨rfl, (encodeSample_range x).1, (encodeSample_range x).2⟩

/-- C6: the code violates the claim. The `onaudioprocess` closure captures
`isMicOn` from the render in which `startSession` installed it; the
handler is never reassigned, so after the user toggles the mic off the
callback still reads the stale `true`: the frame is encoded, the volume
is published and the blob is handed to the transport — nothing is
discarded. Evaluated here on the failing trace: session started with the
mic on, mic toggled off, one frame `[1/2]` delivered. -/
theorem claim_C6_stale_mic_flag :
    (toggleMicButton (installAudioHandler initialMicState)).isMicOn = false
    ∧ deliverFrame (toggleMicButton (installAudioHandler initialMicState)) [1/2] =
        some (volumeLevel [1/2], createPcmBlob [1/2]) :=
  ⟨rfl, rfl⟩

/-- C7: `cleanup` never throws — for every failure behaviour of the
platform calls and every ref state (before start completed, after partial
failure, or already cleaned) it returns normally with every ref null and
the pending-sources collection empty, and running it again from the
cleaned state is a no-op with the same result. -/
theorem claim_C7_cleanup_never_throws (env : CleanupEnv) (st : Refs) :
    cleanup env st = Except.ok cleanedRefs
    ∧ cleanup env cleanedRefs = Except.ok cleanedRefs :=
  ⟨cleanup_eq env st, cleanup_eq env cleanedRefs⟩

/-- C8: when `getUserMedia` rejects with `NotAllowedError`, `startSession`
reports the distinguishable "Microphone permission denied." status —
distinct from the no-device status — and never opens the transport
channel, since `ai.live.connect` is reached only after microphone
acquisition succeeds. -/
theorem claim_C8_permission_denied (env : StartEnv) (k : String)
    (hk : env.apiKey = some k)
    (hm : env.micResult = Except.error MediaError.notAllowed) :
    (startSession env).status = "Microphone permission denied."
    ∧ (startSession env).transportOpened = false
    ∧ initErrorStatus MediaError.notAllowed ≠ initErrorStatus MediaError.notFound := by
  refine ⟨?_, ?_, by decide⟩ <;> simp [startSession, hk, hm, initErrorStatus]

/-- C8 witness: a concrete environment whose microphone acquisition is
denied. -/
theorem claim_C8_permission_denied_witness :
    (startSession ⟨some ("key"), Except.error MediaError.notAllowed⟩).status =
        "Microphone permission denied."
    ∧ (startSession ⟨some ("key"), Except.error MediaError.notAllowed⟩).transportOpened = false
    ∧ initErrorStatus MediaError.notAllowed ≠ initErrorStatus MediaError.notFound :=
  claim_C8_permission_denied ⟨some ("key"), Except.error MediaError.notAllowed⟩ ("key") rfl rfl

/-- C9: an inbound audio payload of odd byte length makes
`new Int16Array(data.buffer)` throw, the chunk is dropped with the
scheduler state untouched (no failed state is entered), and every
subsequent inbound message is processed exactly as it would have been had
the malformed chunk never arrived. -/
theorem claim_C9_odd_payload_dropped (st : PlayerState) (now : ℚ)
    (msg : ServerMessage) (bytes : List ℕ)
    (hb : msg.audioData = some bytes) (hodd : bytes.length % 2 = 1) :
    onMessage st now msg = st
    ∧ decodeAudioData bytes =
        Except.error ("RangeError: byte length of Int16Array should be a multiple of 2")
    ∧ ∀ (now' : ℚ) (msg' : ServerMessage),
        onMessage (onMessage st now msg) now' msg' = onMessage st now' msg' := by
  have hdec : decodeAudioData bytes =
      Except.error ("RangeError: byte length of Int16Array should be a multiple of 2") := by
    rw [decodeAudioData, if_neg (by omega)]
  have h1 : onMessage st now msg = st := by
    rw [onMessage]
    simp [hb, hdec]
  exact ⟨h1, hdec, fun now' msg' => by rw [h1]⟩

/-- C9 witness: a one-byte (odd) payload delivered to an idle scheduler. -/
theorem claim_C9_odd_payload_dropped_witness :
    onMessage ⟨0, [], []⟩ 0 ⟨some [7], false⟩ = (⟨0, [], []⟩ : PlayerState)
    ∧ decodeAudioData [7] =
        Except.error ("RangeError: byte length of Int16Array should be a multiple of 2")
    ∧ ∀ (now' : ℚ) (msg' : ServerMessage),
        onMessage (onMessage ⟨0, [], []⟩ 0 ⟨some [7], false⟩) now' msg' =
          onMessage ⟨0, [], []⟩ now' msg' :=
  claim_C9_odd_payload_dropped ⟨0, [], []⟩ 0 ⟨some [7], false⟩ [7] rfl (by norm_num)

/-- C10: with the mic enabled, the capture callback publishes exactly
`volumeLevel frame`, which is always within `[0, 100]`: a nonnegative
sparse mean of absolute samples scaled by 500 and clamped above at 100. -/
theorem claim_C10_volume_range (frame : List ℚ) (h : 0 < frame.length) :
    onAudioProcess true frame = some (volumeLevel frame, createPcmBlob frame)
    ∧ 0 ≤ volumeLevel frame ∧ volumeLevel frame ≤ 100 :=
  ⟨rfl, (volumeLevel_mem frame h).1, (volumeLevel_mem frame h).2⟩

/-- C10 witness: the one-sample frame `[1/2]`. -/
theorem claim_C10_volume_range_witness :
    onAudioProcess true [1/2] = some (volumeLevel [1/2], createPcmBlob [1/2])
    ∧ 0 ≤ volumeLevel [(1 : ℚ)/2] ∧ volumeLevel [(1 : ℚ)/2] ≤ 100 :=
  claim_C10_volume_range [1/2] (by norm_num)
